import Mathlib

/-!
Verification of the orchestration logic of the `RunCellpose` CellProfiler module
(`cellprofiler/modules/runcellpose.py`).

The module's `run` method composes channels from one or two greyscale images, resolves
the expected object diameter, loads/caches Cellpose model handles, sequences an optional
denoise pass and a segmentation pass, and post-processes the resulting label map.
This file gives a shallow embedding of that logic and proves/refutes the frozen claims
about it.

Modelling conventions:
* numpy arrays are modelled as flat row-major arrays (`NArr`): a shape vector plus a
  flat data list.  numpy requires rectangular arrays, which this representation
  enforces by construction; well-formedness (`NArr.wf`) states that the data length
  matches the product of the shape.
* pixel values are modelled as `Int` (the module moves pixel data around but never
  computes with individual pixels).
* float-valued settings (thresholds, spacing) are modelled as `Rat`; the module only
  passes them through and compares them, never does float-sensitive arithmetic.
* the external inference services (the Cellpose segmentation model, the denoise model,
  and the continuous-interpolation image resampler) are black boxes per the spec and
  are modelled as oracle functions supplied to `run`.
* side effects (model loads, inference calls, publications to the object/image sinks)
  are recorded as an event trace.
-/

namespace RunCellpose

/-- Product of a shape vector (number of elements of a rectangular array). -/
def natProd : List Nat → Nat
  | [] => 1
  | d :: ds => d * natProd ds

/-- Nth element of a list, `none` when out of range (kept self-contained so that all
terms reduce in the kernel). -/
def nth {α : Type} : List α → Nat → Option α
  | [], _ => none
  | a :: _, 0 => some a
  | _ :: l, n + 1 => nth l n

/-- Concatenation of the blocks `g 0 ++ g 1 ++ ... ++ g (d-1)`. -/
def catRange {α : Type} (g : Nat → List α) : Nat → List α
  | 0 => []
  | d + 1 => catRange g d ++ g d

/-- A numpy-style N-dimensional array: shape vector plus flat row-major data. -/
structure NArr where
  shape : List Nat
  data : List Int
deriving DecidableEq, Repr

/-- Well-formedness: the flat data has exactly one entry per index vector. -/
def NArr.wf (a : NArr) : Prop := a.data.length = natProd a.shape

instance (a : NArr) : Decidable a.wf :=
  inferInstanceAs (Decidable (a.data.length = natProd a.shape))

/-- Row-major flat position of an index vector. -/
def flatIndex : List Nat → List Nat → Nat
  | _ :: ds, i :: is => i * natProd ds + flatIndex ds is
  | _, _ => 0

/-- An index vector is in range for a shape (also forces equal lengths). -/
def validIdx : List Nat → List Nat → Bool
  | [], [] => true
  | d :: ds, i :: is => decide (i < d) && validIdx ds is
  | _, _ => false

/-- Value of the array at a multi-index, `none` when the index is out of range. -/
def NArr.get? (a : NArr) (p : List Nat) : Option Int :=
  if validIdx a.shape p then nth a.data (flatIndex a.shape p) else none

/-- An index vector touches a boundary face of the array: some coordinate is the
first or the last one along its axis. -/
def isBoundaryIdx : List Nat → List Nat → Bool
  | d :: ds, i :: is => (i == 0 || i + 1 == d) || isBoundaryIdx ds is
  | _, _ => false

/-- All index vectors of a shape, in row-major order. -/
def allIdx : List Nat → List (List Nat)
  | [] => [[]]
  | d :: ds => catRange (fun i => (allIdx ds).map fun p => i :: p) d

/-- `numpy.zeros_like`: an array of zeros of the same shape. -/
def np_zeros_like (a : NArr) : NArr :=
  ⟨a.shape, a.data.map fun _ => 0⟩

/-- Flat data of `numpy.stack((a, b, c), axis=-1)`: triples interleaved elementwise. -/
def zip3Flat : List Int → List Int → List Int → List Int
  | x :: xs, y :: ys, z :: zs => x :: y :: z :: zip3Flat xs ys zs
  | _, _, _ => []

/-- `numpy.stack((a, b, c), axis=-1)`: a new trailing axis of length 3.
numpy raises a `ValueError` unless all inputs have the same shape. -/
def np_stack_last3 (a b c : NArr) : Except String NArr :=
  if a.shape = b.shape ∧ b.shape = c.shape then
    .ok ⟨a.shape ++ [3], zip3Flat a.data b.data c.data⟩
  else .error "all input arrays must have the same shape"

/-- `numpy.stack((a, b, c), axis=1)`: a new axis of length 3 immediately after the
leading axis.  numpy additionally requires the inputs to have at least one axis. -/
def np_stack_axis1_3 (a b c : NArr) : Except String NArr :=
  if a.shape = b.shape ∧ b.shape = c.shape then
    match a.shape with
    | [] => .error "axis 1 is out of bounds for array of dimension 1"
    | d :: rest =>
      let block := natProd rest
      .ok ⟨d :: 3 :: rest,
        catRange (fun z =>
          ((a.data.drop (z * block)).take block) ++
          ((b.data.drop (z * block)).take block) ++
          ((c.data.drop (z * block)).take block)) d⟩
  else .error "all input arrays must have the same shape"

/-- Labels of pixels that lie on a boundary face of the label map. -/
def edgeLabels (a : NArr) : List Int :=
  ((allIdx a.shape).filter fun p => isBoundaryIdx a.shape p).filterMap fun p => a.get? p

/-- Modelled from the spec: `cellpose.utils.remove_edge_masks` (the cellpose library is
not part of this repository's sources).  Per the spec, it discards every object whose
pixel footprint touches any boundary face of the (possibly volumetric) array, keeps
strictly interior objects unchanged, and removed identities do not reappear. -/
def remove_edge_masks (a : NArr) : NArr :=
  ⟨a.shape, a.data.map fun v => if v ∈ edgeLabels a then 0 else v⟩

/-- Nearest-neighbor source coordinate for output coordinate `i` when resizing an axis
of length `n` to length `m`. -/
def nnSrc (m n i : Nat) : Nat := min (i * n / m) (n - 1)

/-- Nearest-neighbor source index vector for a target index vector. -/
def nnIdxMap : List Nat → List Nat → List Nat → List Nat
  | m :: ms, n :: ns, i :: is => nnSrc m n i :: nnIdxMap ms ns is
  | _, _, _ => []

/-- Modelled from the spec: `skimage.transform.resize(y, shape, preserve_range=True,
order=0)` (scikit-image is not part of this repository's sources).  Per the spec this
is a nearest-neighbor (order-0, label-preserving) resize to the target shape. -/
def resize_nn (a : NArr) (shp : List Nat) : NArr :=
  ⟨shp, (allIdx shp).map fun p => (a.get? (nnIdxMap shp a.shape p)).getD 0⟩

/-- Substring test (`"upsample" in self.denoise_type.value`). -/
def charsLeadEq : List Char → List Char → Bool
  | [], _ => true
  | a :: as, b :: bs => a == b && charsLeadEq as bs
  | _ :: _, [] => false

/-- `pat in s` for Python strings. -/
def strContains (s pat : String) : Bool :=
  (List.range (s.length + 1)).any fun i => charsLeadEq pat.data (s.data.drop i)

/-! ## Settings surface and external interfaces

The configuration surface is consumed by the core as plain values (spec section 6);
the defaults below follow `create_settings`.  `cellprofiler_core` `Binary` settings
are truthy exactly when their boolean value is true, so `if self.remove_edge_masks:`
tests the setting's value. -/

/-- Built-in Cellpose model family names (`MODEL_NAMES`). -/
def MODEL_NAMES : List String :=
  ["cyto3", "nuclei", "cyto2_cp3", "tissuenet_cp3", "livecell_cp3", "yeast_PhC_cp3",
   "yeast_BF_cp3", "bact_phase_cp3", "bact_fluor_cp3", "deepbacs_cp3", "cyto2", "cyto"]

/-- Denoiser model family names (`DENOISER_NAMES`). -/
def DENOISER_NAMES : List String :=
  ["denoise_cyto3", "deblur_cyto3", "upsample_cyto3",
   "denoise_nuclei", "deblur_nuclei", "upsample_nuclei"]

/-- Model families that support size scaling (`SIZED_MODELS`). -/
def SIZED_MODELS : List String := ["cyto3", "cyto2", "cyto", "nuclei"]

/-- The module's settings, as plain values. -/
structure Config where
  expected_diameter : Int
  mode : String
  use_gpu : Bool
  supply_nuclei : Bool
  save_probabilities : Bool
  model_directory : String
  model_file_name : String
  flow_threshold : Rat
  cellprob_threshold : Rat
  manual_GPU_memory_share : Rat
  stitch_threshold : Rat
  do_3D : Bool
  min_size : Int
  invert : Bool
  remove_edge_masks : Bool
  denoise : Bool
  denoise_type : String
deriving DecidableEq, Repr

/-- An input image as provided by the image source: pixel data, physical spacing and
the multichannel flag (spec section 6). -/
structure CPImage where
  pixel_data : NArr
  spacing : List Rat
  multichannel : Bool
deriving DecidableEq, Repr

/-- The image set consulted by `run`: the primary image and the (optional) nuclei
image; the latter is only fetched when an auxiliary run is requested. -/
structure Workspace where
  x : CPImage
  nuc : CPImage
deriving DecidableEq, Repr

/-- A loaded primary model handle: sized families use `models.Cellpose`, every other
family (including custom paths) uses `models.CellposeModel`. -/
inductive ModelHandle where
  | cellpose : String → Bool → ModelHandle
  | cellposeModel : String → Bool → ModelHandle
deriving DecidableEq, Repr

/-- A loaded denoiser handle (`denoise.DenoiseModel`). -/
structure DenoiseHandle where
  model_type : String
  gpu : Bool
  chan2 : Bool
deriving DecidableEq, Repr

/-- The cross-invocation cached model state (`self.current_model`,
`self.current_model_params`, `self.recon_model`, `self.recon_model_params`). -/
structure ModelState where
  current_model : Option ModelHandle
  current_model_params : Option (String × Bool)
  recon_model : Option DenoiseHandle
  recon_model_params : Option (String × Bool × Bool)
deriving DecidableEq, Repr

/-- The state set up by `__init__`: nothing cached. -/
def initState : ModelState := ⟨none, none, none, none⟩

/-- Arguments of a segmentation `eval` call (`self.current_model.eval(...)`). -/
structure EvalArgs where
  channels : List Nat
  diameter : Option Int
  do_3D : Bool
  anisotropy : Rat
  flow_threshold : Rat
  cellprob_threshold : Rat
  stitch_threshold : Rat
  min_size : Int
  invert : Bool
deriving DecidableEq, Repr

/-- Observable side effects of an invocation. -/
inductive Event where
  | loadModel : String × Bool → Event
  | loadDenoiser : String × Bool × Bool → Event
  | denoiseEval : NArr → Option Int → List Nat → Event
  | segEval : NArr → EvalArgs → Event
  | addObjects : NArr → Event
  | addImage : NArr → Event
deriving DecidableEq, Repr

/-- The external inference services, black boxes per the spec: the denoise model's
`eval`, the segmentation model's `eval` (returning the label map and the probability
plane `flows[2]`), and the continuous-interpolation resampler used for the
probability image. -/
structure Oracles where
  reconEval : DenoiseHandle → NArr → Option Int → List Nat → NArr
  segEval : Option ModelHandle → NArr → EvalArgs → NArr × NArr
  resizeSmooth : NArr → List Nat → NArr

/-! ## `load_models` -/

/-- The model name resolved from the settings: the mode name, or the joined custom
model path when the mode is `custom`. -/
def resolved_model_name (cfg : Config) : String :=
  if cfg.mode = "custom" then cfg.model_directory ++ "/" ++ cfg.model_file_name
  else cfg.mode

/-- `RunCellpose.load_models`: reload the primary model only when
`(model_name, use_gpu)` changed; reload the denoiser only when
`(denoise_type, use_gpu, chan2)` changed; with denoising disabled, drop the cached
denoiser handle and its key. -/
def load_models (cfg : Config) (s : ModelState) : ModelState × List Event :=
  let model_name := resolved_model_name cfg
  let model_params : String × Bool := (model_name, cfg.use_gpu)
  let step1 : ModelState × List Event :=
    if s.current_model_params = some model_params then (s, [])
    else
      let handle := if model_name ∈ SIZED_MODELS then
          ModelHandle.cellpose model_name cfg.use_gpu
        else ModelHandle.cellposeModel model_name cfg.use_gpu
      ({ s with current_model := some handle, current_model_params := some model_params },
        [Event.loadModel model_params])
  let s1 := step1.1
  if cfg.denoise then
    let recon_params : String × Bool × Bool :=
      (cfg.denoise_type, cfg.use_gpu, (cfg.mode != "nuclei") && cfg.supply_nuclei)
    let step2 : ModelState × List Event :=
      if s1.recon_model_params = some recon_params then (s1, [])
      else
        let handle2 : DenoiseHandle := ⟨recon_params.1, recon_params.2.1, recon_params.2.2⟩
        ({ s1 with recon_model := some handle2 }, [Event.loadDenoiser recon_params])
    ({ step2.1 with recon_model_params := some recon_params }, step1.2 ++ step2.2)
  else
    ({ s1 with recon_model := none, recon_model_params := none }, step1.2)

/-! ## `run` -/

/-- The channel composition step of `run` (lines 449-466): with an auxiliary nuclei
image (and a non-nuclei model family), stack an all-zero plane, the primary image and
the nuclei image along a new channel axis — axis 1 in 3D mode, the trailing axis
otherwise — and use channels `[2, 3]`; otherwise pass the primary image through with
channels `[0, 0]`. -/
def composed_input (cfg : Config) (ws : Workspace) : Except String (NArr × List Nat) :=
  if (cfg.mode != "nuclei") && cfg.supply_nuclei then
    (if cfg.do_3D then
      np_stack_axis1_3 (np_zeros_like ws.x.pixel_data) ws.x.pixel_data ws.nuc.pixel_data
     else
      np_stack_last3 (np_zeros_like ws.x.pixel_data) ws.x.pixel_data
        ws.nuc.pixel_data).map fun t => (t, [2, 3])
  else .ok (ws.x.pixel_data, [0, 0])

/-- Whether an `Except` value is a success. -/
def isOkB {ε α : Type} : Except ε α → Bool
  | .ok _ => true
  | .error _ => false

/-- Composed tensor (meaningful under `isOkB (composed_input cfg ws)`). -/
def composed_tensor (cfg : Config) (ws : Workspace) : NArr :=
  match composed_input cfg ws with
  | .ok (t, _) => t
  | .error _ => ⟨[], []⟩

/-- Composed channel pair (meaningful under `isOkB (composed_input cfg ws)`). -/
def composed_channels (cfg : Config) (ws : Workspace) : List Nat :=
  match composed_input cfg ws with
  | .ok (_, c) => c
  | .error _ => []

/-- The diameter resolved from the setting (line 442): a positive value is passed
through, `0` becomes `None`. -/
def resolved_diam (cfg : Config) : Option Int :=
  if cfg.expected_diameter > 0 then some cfg.expected_diameter else none

/-- Result of the optional denoise pass. -/
structure DenoiseOut where
  input : NArr
  diam : Option Int
  channels : List Nat
  events : List Event
deriving Repr

/-- The optional denoise pass (lines 471-486): when a denoiser handle is cached, run
it on the composed tensor; afterwards override the diameter to the upsampler's native
target (30 for `upsample_cyto3`, 17 for `upsample_nuclei`), and, when the composed
tensor carried the auxiliary channel, collapse the channel pair to `[0, 1]`. -/
def denoise_stage (cfg : Config) (orc : Oracles) (s1 : ModelState)
    (x_data : NArr) (diam0 : Option Int) (chans : List Nat) : DenoiseOut :=
  match s1.recon_model with
  | some recon =>
    let out := orc.reconEval recon x_data diam0 chans
    let diam1 := if cfg.denoise_type = "upsample_cyto3" then some 30
      else if cfg.denoise_type = "upsample_nuclei" then some 17
      else diam0
    let chans1 := if (cfg.mode != "nuclei") && cfg.supply_nuclei then [0, 1] else chans
    ⟨out, diam1, chans1, [Event.denoiseEval x_data diam0 chans]⟩
  | none => ⟨x_data, diam0, chans, []⟩

/-- The argument bundle of the segmentation call (lines 488-499).  The anisotropy is
`spacing[0] / spacing[1]` in 3D mode and `0.0` otherwise; the 3D flag and the stitch
threshold are the settings values, passed unconditionally. -/
def seg_args (cfg : Config) (x : CPImage) (diam : Option Int) (chans : List Nat) :
    EvalArgs :=
  { channels := chans
    diameter := diam
    do_3D := cfg.do_3D
    anisotropy := if cfg.do_3D then (x.spacing.getD 0 0) / (x.spacing.getD 1 1) else 0
    flow_threshold := cfg.flow_threshold
    cellprob_threshold := cfg.cellprob_threshold
    stitch_threshold := cfg.stitch_threshold
    min_size := cfg.min_size
    invert := cfg.invert }

/-- The resize-back step (lines 501-503): after an upsampling denoiser, resize the
label map back to the original primary image's shape with order-0 interpolation. -/
def resize_step (cfg : Config) (origShape : List Nat) (y : NArr) : NArr :=
  if cfg.denoise && strContains cfg.denoise_type "upsample" then resize_nn y origShape
  else y

/-- The edge-mask removal step (lines 505-507): applied exactly when the
`remove_edge_masks` setting is on. -/
def edge_step (cfg : Config) (y : NArr) : NArr :=
  if cfg.remove_edge_masks then remove_edge_masks y else y

/-- The full post-processing of the label map: resize back first, then edge-mask
removal. -/
def post_process (cfg : Config) (origShape : List Nat) (y : NArr) : NArr :=
  edge_step cfg (resize_step cfg origShape y)

/-- Published outputs of a successful invocation. -/
structure RunOutputs where
  labels : NArr
  prob : Option NArr
deriving DecidableEq, Repr

/-- Result of one invocation: final cached state, event trace, and outcome. -/
structure RunResult where
  finalState : ModelState
  events : List Event
  outcome : Except String RunOutputs

/-- The label map published to the object sink, if the invocation succeeded. -/
def RunResult.labels? (r : RunResult) : Option NArr :=
  match r.outcome with
  | .ok o => some o.labels
  | .error _ => none

/-- `RunCellpose.run`: reject multichannel primary images, compose channels, load
models, sequence the optional denoise pass and the segmentation pass, post-process
the label map, publish it, and optionally publish the probability image. -/
def run (cfg : Config) (ws : Workspace) (orc : Oracles) (s0 : ModelState) : RunResult :=
  if ws.x.multichannel then
    ⟨s0, [],
      .error "Color images are not currently supported. Please provide greyscale images."⟩
  else
    match composed_input cfg ws with
    | .error e => ⟨s0, [], .error e⟩
    | .ok (x_data, chans) =>
      let diam0 := resolved_diam cfg
      let lm := load_models cfg s0
      let s1 := lm.1
      let dn := denoise_stage cfg orc s1 x_data diam0 chans
      let args := seg_args cfg ws.x dn.diam dn.channels
      let ev := orc.segEval s1.current_model dn.input args
      let y_pub := post_process cfg ws.x.pixel_data.shape ev.1
      let probPart : Option NArr × List Event :=
        if cfg.save_probabilities then
          let size_corrected := orc.resizeSmooth ev.2 y_pub.shape
          (some size_corrected, [Event.addImage size_corrected])
        else (none, [])
      ⟨s1, lm.2 ++ dn.events ++ [Event.segEval dn.input args, Event.addObjects y_pub]
          ++ probPart.2,
        .ok ⟨y_pub, probPart.1⟩⟩

/-- The denoise-stage result of an invocation, recomputed from the same stages `run`
uses. -/
def run_dn (cfg : Config) (ws : Workspace) (orc : Oracles) (s0 : ModelState) :
    DenoiseOut :=
  match composed_input cfg ws with
  | .error _ => ⟨⟨[], []⟩, none, [], []⟩
  | .ok (x_data, chans) =>
    denoise_stage cfg orc (load_models cfg s0).1 x_data (resolved_diam cfg) chans

/-- The argument bundle of an invocation's segmentation call, recomputed from the same
stages `run` uses. -/
def run_args (cfg : Config) (ws : Workspace) (orc : Oracles) (s0 : ModelState) :
    EvalArgs :=
  seg_args cfg ws.x (run_dn cfg ws orc s0).diam (run_dn cfg ws orc s0).channels

/-- The raw segmentation output of an invocation (the label map at the model's
internal working resolution), recomputed from the same stages `run` uses. -/
def run_seg_output (cfg : Config) (ws : Workspace) (orc : Oracles) (s0 : ModelState) :
    NArr :=
  (orc.segEval (load_models cfg s0).1.current_model (run_dn cfg ws orc s0).input
    (run_args cfg ws orc s0)).1

/-! ## Trace projections -/

/-- Arguments of the segmentation calls in a trace. -/
def segArgsOf (evs : List Event) : List EvalArgs :=
  evs.filterMap fun e => match e with
    | .segEval _ a => some a
    | _ => none

/-- Primary-model load events in a trace. -/
def modelLoadsOf (evs : List Event) : List (String × Bool) :=
  evs.filterMap fun e => match e with
    | .loadModel p => some p
    | _ => none

/-- Denoiser load events in a trace. -/
def denoiserLoadsOf (evs : List Event) : List (String × Bool × Bool) :=
  evs.filterMap fun e => match e with
    | .loadDenoiser p => some p
    | _ => none

/-- The tensor consumed by the first inference call (denoise or segmentation) in a
trace. -/
def firstEvalInput : List Event → Option NArr
  | [] => none
  | Event.denoiseEval t _ _ :: _ => some t
  | Event.segEval t _ :: _ => some t
  | _ :: evs => firstEvalInput evs

/-- The channel pair passed to the first inference call in a trace. -/
def firstEvalChannels : List Event → Option (List Nat)
  | [] => none
  | Event.denoiseEval _ _ c :: _ => some c
  | Event.segEval _ a :: _ => some a.channels
  | _ :: evs => firstEvalChannels evs

/-- Events that are model loads (no inference, no publication). -/
def isLoadEvent : Event → Bool
  | Event.loadModel _ => true
  | Event.loadDenoiser _ => true
  | _ => false

/-- A cache state is coherent when a stored denoiser key implies a stored denoiser
handle; `initState` is coherent and `load_models` preserves coherence. -/
def ModelState.denoiserCoherent (s : ModelState) : Prop :=
  s.recon_model = none → s.recon_model_params = none

/-! ## Concrete fixtures used by the witnesses and counterexamples

The configuration fixture follows the defaults of `create_settings`, except that the
float-valued thresholds are given kernel-friendly integral values (the claims under
test never depend on the specific fractional values). -/

def baseConfig : Config :=
  { expected_diameter := 30, mode := "cyto3", use_gpu := false, supply_nuclei := false,
    save_probabilities := false, model_directory := "", model_file_name := "cyto_0",
    flow_threshold := 1, cellprob_threshold := 0, manual_GPU_memory_share := 1,
    stitch_threshold := 0, do_3D := false, min_size := 15, invert := false,
    remove_edge_masks := true, denoise := false, denoise_type := "denoise_cyto3" }

def img2x2 : CPImage :=
  { pixel_data := ⟨[2, 2], [1, 2, 3, 4]⟩, spacing := [1, 1, 1], multichannel := false }

def img2x2b : CPImage :=
  { pixel_data := ⟨[2, 2], [5, 6, 7, 8]⟩, spacing := [1, 1, 1], multichannel := false }

def imgColor : CPImage :=
  { pixel_data := ⟨[2, 2, 3], List.replicate 12 1⟩, spacing := [1, 1, 1],
    multichannel := true }

def wsPlain : Workspace := ⟨img2x2, img2x2b⟩

def orcId : Oracles :=
  { reconEval := fun _ t _ _ => t
    segEval := fun _ t _ => (t, t)
    resizeSmooth := fun t _ => t }

def cfgUpsample : Config :=
  { baseConfig with
    denoise := true
    denoise_type := "upsample_cyto3"
    expected_diameter := 100 }

def cfgAuxDenoise : Config :=
  { baseConfig with
    supply_nuclei := true
    denoise := true
    denoise_type := "denoise_cyto3" }

def cfgZeroDiam : Config :=
  { baseConfig with expected_diameter := 0, mode := "tissuenet_cp3", do_3D := true }

def cfgStitch3D : Config := { baseConfig with do_3D := true, stitch_threshold := 1 }

/-- Identifiers of the module's settings, used for the visible-settings list. -/
inductive SettingId where
  | x_name
  | expected_diameter
  | mode
  | y_name
  | use_gpu
  | supply_nuclei
  | nuclei_image
  | save_probabilities
  | probabilities_name
  | model_directory
  | model_file_name
  | flow_threshold
  | cellprob_threshold
  | manual_GPU_memory_share
  | stitch_threshold
  | do_3D
  | min_size
  | invert
  | remove_edge_masks
  | denoise
  | denoise_type
deriving DecidableEq, Repr

/-- `RunCellpose.visible_settings`: which settings the UI shows; the stitch threshold
is listed only when 3D mode is off. -/
def visible_settings (cfg : Config) : List SettingId :=
  [SettingId.mode, SettingId.x_name] ++
  (if cfg.mode ≠ "nuclei" then
    [SettingId.supply_nuclei] ++
      (if cfg.supply_nuclei then [SettingId.nuclei_image] else [])
   else []) ++
  (if cfg.mode = "custom" then
    [SettingId.model_directory, SettingId.model_file_name]
   else []) ++
  [SettingId.expected_diameter, SettingId.denoise] ++
  (if cfg.denoise then [SettingId.denoise_type] else []) ++
  [SettingId.cellprob_threshold, SettingId.min_size, SettingId.flow_threshold,
   SettingId.y_name, SettingId.invert, SettingId.save_probabilities] ++
  (if cfg.save_probabilities then [SettingId.probabilities_name] else []) ++
  [SettingId.do_3D] ++
  (if cfg.do_3D then [] else [SettingId.stitch_threshold]) ++
  [SettingId.remove_edge_masks]

def cfgUpsampleEdge : Config :=
  { baseConfig with
    denoise := true
    denoise_type := "upsample_nuclei" }

def orcBig : Oracles :=
  { reconEval := fun _ t _ _ => t
    segEval := fun _ _ _ => (⟨[3, 3], [7, 0, 0, 0, 4, 0, 7, 0, 0]⟩,
      ⟨[3, 3], [0, 0, 0, 0, 1, 0, 0, 0, 0]⟩)
    resizeSmooth := fun t _ => t }

def cfgAux : Config := { baseConfig with supply_nuclei := true }


/-! ## Basic lemmas about the flat array model -/

theorem nth_append_left {α : Type} (l1 l2 : List α) (n : Nat) (h : n < l1.length) :
    nth (l1 ++ l2) n = nth l1 n := by
  induction l1 generalizing n with
  | nil => simp at h
  | cons a l ih =>
    cases n with
    | zero => rfl
    | succ n => exact ih n (by simpa using h)

theorem nth_append_right {α : Type} (l1 l2 : List α) (n : Nat) (h : l1.length ≤ n) :
    nth (l1 ++ l2) n = nth l2 (n - l1.length) := by
  induction l1 generalizing n with
  | nil => simp
  | cons a l ih =>
    cases n with
    | zero => simp at h
    | succ n =>
      have := ih n (by simpa using h)
      simpa [nth, Nat.succ_sub_succ] using this

theorem nth_map {α β : Type} (f : α → β) (l : List α) (n : Nat) :
    nth (l.map f) n = (nth l n).map f := by
  induction l generalizing n with
  | nil => rfl
  | cons a l ih =>
    cases n with
    | zero => rfl
    | succ n => exact ih n

theorem nth_take {α : Type} (l : List α) (m n : Nat) (h : n < m) :
    nth (l.take m) n = nth l n := by
  induction l generalizing m n with
  | nil => simp
  | cons a l ih =>
    cases m with
    | zero => omega
    | succ m =>
      cases n with
      | zero => rfl
      | succ n => exact ih m n (by omega)

theorem nth_drop {α : Type} (l : List α) (m n : Nat) :
    nth (l.drop m) n = nth l (m + n) := by
  induction m generalizing l with
  | zero => simp
  | succ m ih =>
    cases l with
    | nil => rfl
    | cons a l =>
      have : m + 1 + n = (m + n) + 1 := by omega
      rw [this]
      exact ih l

theorem nth_slice {α : Type} (l : List α) (m B n : Nat) (h : n < B) :
    nth ((l.drop m).take B) n = nth l (m + n) := by
  rw [nth_take _ _ _ h, nth_drop]

theorem nth_mem {α : Type} {l : List α} {n : Nat} {a : α} (h : nth l n = some a) :
    a ∈ l := by
  induction l generalizing n with
  | nil => simp [nth] at h
  | cons b l ih =>
    cases n with
    | zero => simp [nth] at h; simp [h]
    | succ n => exact List.mem_cons_of_mem _ (ih h)

theorem nth_eq_some_of_lt {α : Type} (l : List α) (n : Nat) (h : n < l.length) :
    ∃ a, nth l n = some a := by
  induction l generalizing n with
  | nil => simp at h
  | cons b l ih =>
    cases n with
    | zero => exact ⟨b, rfl⟩
    | succ n => exact ih n (by simpa using h)

theorem length_catRange {α : Type} (g : Nat → List α) (L d : Nat)
    (hg : ∀ z, z < d → (g z).length = L) : (catRange g d).length = d * L := by
  induction d with
  | zero => simp [catRange]
  | succ d ih =>
    have h1 : ∀ z, z < d → (g z).length = L := fun z hz => hg z (by omega)
    simp only [catRange, List.length_append, ih h1, hg d (by omega)]
    ring

theorem nth_catRange {α : Type} (g : Nat → List α) (L d z off : Nat)
    (hg : ∀ w, w < d → (g w).length = L) (hz : z < d) (hoff : off < L) :
    nth (catRange g d) (z * L + off) = nth (g z) off := by
  induction d with
  | zero => omega
  | succ d ih =>
    have h1 : ∀ w, w < d → (g w).length = L := fun w hw => hg w (by omega)
    by_cases hzd : z < d
    · have hlt : z * L + off < d * L := by
        have h2 : z * L + off < (z + 1) * L := by
          simp only [Nat.succ_mul]; omega
        have h3 : (z + 1) * L ≤ d * L := Nat.mul_le_mul_right _ (by omega)
        omega
      rw [catRange, nth_append_left _ _ _ (by rw [length_catRange g L d h1]; exact hlt)]
      exact ih h1 hzd
    · have hzd2 : z = d := by omega
      subst hzd2
      rw [catRange, nth_append_right _ _ _ (by rw [length_catRange g L z h1]; omega)]
      rw [length_catRange g L z h1]
      congr 1
      omega

theorem mem_catRange {α : Type} (g : Nat → List α) (d : Nat) (a : α) :
    a ∈ catRange g d ↔ ∃ z, z < d ∧ a ∈ g z := by
  induction d with
  | zero => simp [catRange]
  | succ d ih =>
    simp only [catRange, List.mem_append, ih]
    constructor
    · rintro (⟨z, hz, hm⟩ | hm)
      · exact ⟨z, by omega, hm⟩
      · exact ⟨d, by omega, hm⟩
    · rintro ⟨z, hz, hm⟩
      by_cases hzd : z < d
      · exact Or.inl ⟨z, hzd, hm⟩
      · have : z = d := by omega
        subst this
        exact Or.inr hm

theorem natProd_append_single (ds : List Nat) (k : Nat) :
    natProd (ds ++ [k]) = natProd ds * k := by
  induction ds with
  | nil => simp [natProd]
  | cons d ds ih =>
    show d * natProd (ds ++ [k]) = d * natProd ds * k
    rw [ih]; ring

theorem validIdx_nil_iff (is : List Nat) : validIdx [] is = true ↔ is = [] := by
  cases is <;> simp [validIdx]

theorem validIdx_append_single (ds is : List Nat) (m k : Nat)
    (h : validIdx ds is = true) :
    validIdx (ds ++ [m]) (is ++ [k]) = decide (k < m) := by
  induction ds generalizing is with
  | nil =>
    have : is = [] := (validIdx_nil_iff is).mp h
    subst this
    simp [validIdx]
  | cons d ds ih =>
    cases is with
    | nil => simp [validIdx] at h
    | cons i is =>
      simp only [validIdx, Bool.and_eq_true, decide_eq_true_eq] at h
      show (decide (i < d) && validIdx (ds ++ [m]) (is ++ [k])) = decide (k < m)
      rw [ih is h.2, decide_eq_true h.1, Bool.true_and]

theorem flatIndex_append_single (ds is : List Nat) (m k : Nat)
    (h : validIdx ds is = true) :
    flatIndex (ds ++ [m]) (is ++ [k]) = m * flatIndex ds is + k := by
  induction ds generalizing is with
  | nil =>
    have : is = [] := (validIdx_nil_iff is).mp h
    subst this
    simp [flatIndex, natProd]
  | cons d ds ih =>
    cases is with
    | nil => simp [validIdx] at h
    | cons i is =>
      simp only [validIdx, Bool.and_eq_true, decide_eq_true_eq] at h
      show i * natProd (ds ++ [m]) + flatIndex (ds ++ [m]) (is ++ [k]) =
        m * (i * natProd ds + flatIndex ds is) + k
      rw [ih is h.2, natProd_append_single]
      ring

theorem flatIndex_lt (ds is : List Nat) (h : validIdx ds is = true) :
    flatIndex ds is < natProd ds := by
  induction ds generalizing is with
  | nil =>
    have : is = [] := (validIdx_nil_iff is).mp h
    subst this
    simp [flatIndex, natProd]
  | cons d ds ih =>
    cases is with
    | nil => simp [validIdx] at h
    | cons i is =>
      simp only [validIdx, Bool.and_eq_true, decide_eq_true_eq] at h
      have h1 := ih is h.2
      simp only [flatIndex, natProd]
      have h2 : i * natProd ds + flatIndex ds is < (i + 1) * natProd ds := by
        simp only [Nat.succ_mul]; omega
      have h3 : (i + 1) * natProd ds ≤ d * natProd ds :=
        Nat.mul_le_mul_right _ (by omega)
      omega

theorem mem_allIdx (ds is : List Nat) : is ∈ allIdx ds ↔ validIdx ds is = true := by
  induction ds generalizing is with
  | nil =>
    simp only [allIdx, validIdx_nil_iff, List.mem_singleton]
  | cons d ds ih =>
    simp only [allIdx, mem_catRange, List.mem_map]
    cases is with
    | nil =>
      simp only [validIdx]
      constructor
      · rintro ⟨z, _, p, _, hp⟩
        exact absurd hp (by simp)
      · intro h
        exact absurd h (by simp)
    | cons i is =>
      simp only [validIdx, Bool.and_eq_true, decide_eq_true_eq]
      constructor
      · rintro ⟨z, hz, p, hp, heq⟩
        obtain ⟨h1, h2⟩ := List.cons.injEq .. ▸ heq
        refine ⟨h1 ▸ hz, ?_⟩
        rw [← ih]
        exact h2 ▸ hp
      · rintro ⟨h1, h2⟩
        exact ⟨i, h1, is, ih is |>.mpr h2, rfl⟩

theorem get?_map_data (f : Int → Int) (a : NArr) (p : List Nat) :
    NArr.get? ⟨a.shape, a.data.map f⟩ p = (a.get? p).map f := by
  simp only [NArr.get?]
  by_cases h : validIdx a.shape p = true
  · simp [h, nth_map]
  · simp [h]

theorem get?_valid {a : NArr} {p : List Nat} {v : Int} (h : a.get? p = some v) :
    validIdx a.shape p = true := by
  by_contra hv
  simp [NArr.get?, hv] at h

theorem mem_edgeLabels (a : NArr) (L : Int) :
    L ∈ edgeLabels a ↔ ∃ p, isBoundaryIdx a.shape p = true ∧ a.get? p = some L := by
  simp only [edgeLabels, List.mem_filterMap, List.mem_filter, mem_allIdx]
  constructor
  · rintro ⟨p, ⟨_, hb⟩, hg⟩
    exact ⟨p, hb, hg⟩
  · rintro ⟨p, hb, hg⟩
    exact ⟨p, ⟨get?_valid hg, hb⟩, hg⟩

theorem nth_cons_succ {α : Type} (a : α) (l : List α) (n : Nat) :
    nth (a :: l) (n + 1) = nth l n := rfl

theorem nth_zip3Flat (a b c : List Int) (j : Nat)
    (hab : a.length = b.length) (hbc : b.length = c.length) (hj : j < a.length) :
    nth (zip3Flat a b c) (3 * j) = nth a j ∧
    nth (zip3Flat a b c) (3 * j + 1) = nth b j ∧
    nth (zip3Flat a b c) (3 * j + 2) = nth c j := by
  induction j generalizing a b c with
  | zero =>
    match a, b, c with
    | [], _, _ => simp at hj
    | _ :: _, [], _ => simp at hab
    | _ :: _, _ :: _, [] => simp at hbc
    | x :: xs, y :: ys, z :: zs => exact ⟨rfl, rfl, rfl⟩
  | succ j ih =>
    match a, b, c with
    | [], _, _ => simp at hj
    | _ :: _, [], _ => simp at hab
    | _ :: _, _ :: _, [] => simp at hbc
    | x :: xs, y :: ys, z :: zs =>
      have hab2 : xs.length = ys.length := by simpa using hab
      have hbc2 : ys.length = zs.length := by simpa using hbc
      have hj2 : j < xs.length := by simpa using hj
      have step : ∀ n : Nat,
          nth (zip3Flat (x :: xs) (y :: ys) (z :: zs)) (n + 3) =
            nth (zip3Flat xs ys zs) n := fun n => rfl
      refine ⟨?_, ?_, ?_⟩
      · have e : 3 * (j + 1) = 3 * j + 3 := by ring
        rw [e, step, (ih xs ys zs hab2 hbc2 hj2).1, nth_cons_succ]
      · have e : 3 * (j + 1) + 1 = (3 * j + 1) + 3 := by ring
        rw [e, step, (ih xs ys zs hab2 hbc2 hj2).2.1, nth_cons_succ]
      · have e : 3 * (j + 1) + 2 = (3 * j + 2) + 3 := by ring
        rw [e, step, (ih xs ys zs hab2 hbc2 hj2).2.2, nth_cons_succ]

theorem length_slice {α : Type} (l : List α) (m B : Nat) (h : m + B ≤ l.length) :
    ((l.drop m).take B).length = B := by
  simp only [List.length_take, List.length_drop]
  omega

theorem ite_cond_true {α : Type} (c : Bool) (h : c = true) (a b : α) :
    (if c = true then a else b) = a := by
  rw [h]
  simp

/-- Characterization of `numpy.stack((zeros, x, nuc), axis=-1)`: the composed tensor
gains a trailing channel axis of length 3 holding the zero plane, the primary image
and the auxiliary image. -/
theorem stack_last3_spec (x nuc : NArr) (hx : x.wf) (hn : nuc.wf)
    (hs : nuc.shape = x.shape) (p : List Nat) (hv : validIdx x.shape p = true) :
    ∃ t, np_stack_last3 (np_zeros_like x) x nuc = .ok t ∧
      t.shape = x.shape ++ [3] ∧
      t.get? (p ++ [0]) = some 0 ∧
      t.get? (p ++ [1]) = x.get? p ∧
      t.get? (p ++ [2]) = nuc.get? p := by
  have hcond : (np_zeros_like x).shape = x.shape ∧ x.shape = nuc.shape := ⟨rfl, hs.symm⟩
  have hlen0 : (x.data.map fun _ => (0 : Int)).length = x.data.length := by simp
  have hlen2 : x.data.length = nuc.data.length := by
    rw [hx, hn, hs]
  have hfi : flatIndex x.shape p < x.data.length := by
    rw [hx]; exact flatIndex_lt _ _ hv
  have hz := nth_zip3Flat (x.data.map fun _ => 0) x.data nuc.data
    (flatIndex x.shape p) (by rw [hlen0]) hlen2 (by rw [hlen0]; exact hfi)
  refine ⟨⟨x.shape ++ [3], zip3Flat (x.data.map fun _ => 0) x.data nuc.data⟩,
    ?_, rfl, ?_, ?_, ?_⟩
  · unfold np_stack_last3
    rw [if_pos hcond]
    rfl
  · -- channel 0: the zero plane
    show NArr.get? ⟨x.shape ++ [3], zip3Flat (x.data.map fun _ => 0) x.data nuc.data⟩ _ = _
    simp only [NArr.get?]
    rw [validIdx_append_single x.shape p 3 0 hv, flatIndex_append_single x.shape p 3 0 hv,
      ite_cond_true (decide ((0 : Nat) < 3)) (by decide), Nat.add_zero, hz.1, nth_map]
    obtain ⟨v, hvv⟩ := nth_eq_some_of_lt x.data _ hfi
    rw [hvv]
    rfl
  · -- channel 1: the primary image
    show NArr.get? ⟨x.shape ++ [3], zip3Flat (x.data.map fun _ => 0) x.data nuc.data⟩ _ = _
    simp only [NArr.get?]
    rw [validIdx_append_single x.shape p 3 1 hv, flatIndex_append_single x.shape p 3 1 hv,
      ite_cond_true (decide ((1 : Nat) < 3)) (by decide), ite_cond_true _ hv]
    exact hz.2.1
  · -- channel 2: the auxiliary image
    show NArr.get? ⟨x.shape ++ [3], zip3Flat (x.data.map fun _ => 0) x.data nuc.data⟩ _ = _
    simp only [NArr.get?]
    rw [validIdx_append_single x.shape p 3 2 hv, flatIndex_append_single x.shape p 3 2 hv,
      ite_cond_true (decide ((2 : Nat) < 3)) (by decide), hs, ite_cond_true _ hv]
    exact hz.2.2

/-- Characterization of `numpy.stack((zeros, x, nuc), axis=1)`: the channel axis of
length 3 is placed immediately after the leading depth axis. -/
theorem stack_axis1_spec (x nuc : NArr) (hx : x.wf) (hn : nuc.wf)
    (hs : nuc.shape = x.shape) (d : Nat) (rest : List Nat) (hsh : x.shape = d :: rest)
    (z : Nat) (p : List Nat) (hz : z < d) (hp : validIdx rest p = true) :
    ∃ t, np_stack_axis1_3 (np_zeros_like x) x nuc = .ok t ∧
      t.shape = d :: 3 :: rest ∧
      t.get? (z :: 0 :: p) = some 0 ∧
      t.get? (z :: 1 :: p) = x.get? (z :: p) ∧
      t.get? (z :: 2 :: p) = nuc.get? (z :: p) := by
  have hcond : (np_zeros_like x).shape = x.shape ∧ x.shape = nuc.shape := ⟨rfl, hs.symm⟩
  have hxd : x.data.length = d * natProd rest := by
    rw [hx, hsh]; rfl
  have hnd : nuc.data.length = d * natProd rest := by
    rw [hn, hs, hsh]; rfl
  have hfi : flatIndex rest p < natProd rest := flatIndex_lt rest p hp
  have hblock : ∀ w, w < d → w * natProd rest + natProd rest ≤ d * natProd rest := by
    intro w hw
    have h2 : (w + 1) * natProd rest ≤ d * natProd rest :=
      Nat.mul_le_mul_right _ (by omega)
    simpa [Nat.succ_mul] using h2
  have hok : np_stack_axis1_3 (np_zeros_like x) x nuc = .ok
      ⟨d :: 3 :: rest, catRange (fun w =>
        (((x.data.map fun _ => (0 : Int)).drop (w * natProd rest)).take (natProd rest)) ++
        ((x.data.drop (w * natProd rest)).take (natProd rest)) ++
        ((nuc.data.drop (w * natProd rest)).take (natProd rest))) d⟩ := by
    unfold np_stack_axis1_3
    rw [if_pos hcond, show (np_zeros_like x).shape = d :: rest from hsh]
    rfl
  have hg : ∀ w, w < d →
      ((((x.data.map fun _ => (0 : Int)).drop (w * natProd rest)).take (natProd rest)) ++
       ((x.data.drop (w * natProd rest)).take (natProd rest)) ++
       ((nuc.data.drop (w * natProd rest)).take (natProd rest))).length =
        3 * natProd rest := by
    intro w hw
    rw [List.length_append, List.length_append,
      length_slice _ _ _ (by rw [List.length_map, hxd]; exact hblock w hw),
      length_slice _ _ _ (by rw [hxd]; exact hblock w hw),
      length_slice _ _ _ (by rw [hnd]; exact hblock w hw)]
    ring
  have hAXlen : ∀ w, w < d →
      ((((x.data.map fun _ => (0 : Int)).drop (w * natProd rest)).take (natProd rest)) ++
       ((x.data.drop (w * natProd rest)).take (natProd rest))).length =
        2 * natProd rest := by
    intro w hw
    rw [List.length_append,
      length_slice _ _ _ (by rw [List.length_map, hxd]; exact hblock w hw),
      length_slice _ _ _ (by rw [hxd]; exact hblock w hw)]
    ring
  have hzfi : z * natProd rest + flatIndex rest p < x.data.length := by
    rw [hxd]
    have := hblock z hz
    omega
  refine ⟨_, hok, rfl, ?_, ?_, ?_⟩
  · -- channel 0: the zero plane
    simp only [NArr.get?]
    have hvall : validIdx (d :: 3 :: rest) (z :: 0 :: p) = true := by
      simp [validIdx, hz, hp]
    rw [ite_cond_true _ hvall,
      show flatIndex (d :: 3 :: rest) (z :: 0 :: p) =
        z * (3 * natProd rest) + (0 * natProd rest + flatIndex rest p) from rfl,
      nth_catRange _ (3 * natProd rest) d z _ hg hz (by omega),
      show (0 : Nat) * natProd rest + flatIndex rest p = flatIndex rest p by omega,
      nth_append_left _ _ _ (by rw [hAXlen z hz]; omega),
      nth_append_left _ _ _
        (by rw [length_slice _ _ _ (by rw [List.length_map, hxd]; exact hblock z hz)]; omega),
      nth_slice _ _ _ _ hfi, nth_map]
    obtain ⟨v, hvv⟩ := nth_eq_some_of_lt x.data _ hzfi
    rw [hvv]
    rfl
  · -- channel 1: the primary image
    simp only [NArr.get?]
    have hvall : validIdx (d :: 3 :: rest) (z :: 1 :: p) = true := by
      simp [validIdx, hz, hp]
    have hvx : validIdx x.shape (z :: p) = true := by
      rw [hsh]; simp [validIdx, hz, hp]
    rw [ite_cond_true _ hvall,
      show flatIndex (d :: 3 :: rest) (z :: 1 :: p) =
        z * (3 * natProd rest) + (1 * natProd rest + flatIndex rest p) from rfl,
      nth_catRange _ (3 * natProd rest) d z _ hg hz (by omega),
      nth_append_left _ _ _ (by rw [hAXlen z hz]; omega),
      nth_append_right _ _ _
        (by rw [length_slice _ _ _ (by rw [List.length_map, hxd]; exact hblock z hz)]; omega),
      length_slice _ _ _ (by rw [List.length_map, hxd]; exact hblock z hz),
      show 1 * natProd rest + flatIndex rest p - natProd rest = flatIndex rest p by omega,
      nth_slice _ _ _ _ hfi, ite_cond_true _ hvx,
      show flatIndex x.shape (z :: p) = z * natProd rest + flatIndex rest p by
        rw [hsh]; rfl]
  · -- channel 2: the auxiliary image
    simp only [NArr.get?]
    have hvall : validIdx (d :: 3 :: rest) (z :: 2 :: p) = true := by
      simp [validIdx, hz, hp]
    have hvn : validIdx nuc.shape (z :: p) = true := by
      rw [hs, hsh]; simp [validIdx, hz, hp]
    rw [ite_cond_true _ hvall,
      show flatIndex (d :: 3 :: rest) (z :: 2 :: p) =
        z * (3 * natProd rest) + (2 * natProd rest + flatIndex rest p) from rfl,
      nth_catRange _ (3 * natProd rest) d z _ hg hz (by omega),
      nth_append_right _ _ _ (by rw [hAXlen z hz]; omega),
      hAXlen z hz,
      show 2 * natProd rest + flatIndex rest p - 2 * natProd rest = flatIndex rest p by
        omega,
      nth_slice _ _ _ _ hfi, ite_cond_true _ hvn,
      show flatIndex nuc.shape (z :: p) = z * natProd rest + flatIndex rest p by
        rw [hs, hsh]; rfl]

theorem ite_cond_false {α : Type} (c : Bool) (h : c = false) (a b : α) :
    (if c = true then a else b) = b := by
  rw [h]
  simp

/-- Success form of the trailing-axis stack used by the channel composer. -/
theorem stack_last3_ok (x nuc : NArr) (hs : nuc.shape = x.shape) :
    np_stack_last3 (np_zeros_like x) x nuc =
      .ok ⟨x.shape ++ [3], zip3Flat (x.data.map fun _ => 0) x.data nuc.data⟩ := by
  unfold np_stack_last3
  rw [if_pos ⟨rfl, hs.symm⟩]
  rfl

/-- Success form of the axis-1 stack used by the channel composer in 3D mode. -/
theorem stack_axis1_ok (x nuc : NArr) (hs : nuc.shape = x.shape)
    (d : Nat) (rest : List Nat) (hsh : x.shape = d :: rest) :
    np_stack_axis1_3 (np_zeros_like x) x nuc = .ok
      ⟨d :: 3 :: rest, catRange (fun w =>
        (((x.data.map fun _ => (0 : Int)).drop (w * natProd rest)).take (natProd rest)) ++
        ((x.data.drop (w * natProd rest)).take (natProd rest)) ++
        ((nuc.data.drop (w * natProd rest)).take (natProd rest))) d⟩ := by
  unfold np_stack_axis1_3
  rw [if_pos ⟨rfl, hs.symm⟩, show (np_zeros_like x).shape = d :: rest from hsh]
  rfl

/-! ## Lemmas about the stages of `run` -/

theorem composed_input_noaux (cfg : Config) (ws : Workspace)
    (h : cfg.supply_nuclei = false ∨ cfg.mode = "nuclei") :
    composed_input cfg ws = .ok (ws.x.pixel_data, [0, 0]) := by
  rcases h with h | h <;> simp [composed_input, h]

theorem composed_cond_true (cfg : Config) (hsup : cfg.supply_nuclei = true)
    (hmode : cfg.mode ≠ "nuclei") :
    ((cfg.mode != "nuclei") && cfg.supply_nuclei) = true := by
  simp [hsup, bne_iff_ne, hmode]

theorem composed_input_aux2d (cfg : Config) (ws : Workspace)
    (hsup : cfg.supply_nuclei = true) (hmode : cfg.mode ≠ "nuclei")
    (h3 : cfg.do_3D = false)
    (hs : ws.nuc.pixel_data.shape = ws.x.pixel_data.shape) :
    composed_input cfg ws = .ok
      (⟨ws.x.pixel_data.shape ++ [3],
        zip3Flat (ws.x.pixel_data.data.map fun _ => 0) ws.x.pixel_data.data
          ws.nuc.pixel_data.data⟩, [2, 3]) := by
  unfold composed_input
  rw [ite_cond_true _ (composed_cond_true cfg hsup hmode), ite_cond_false _ h3,
    stack_last3_ok _ _ hs]
  rfl

theorem composed_input_aux3d (cfg : Config) (ws : Workspace)
    (hsup : cfg.supply_nuclei = true) (hmode : cfg.mode ≠ "nuclei")
    (h3 : cfg.do_3D = true)
    (hs : ws.nuc.pixel_data.shape = ws.x.pixel_data.shape)
    (d : Nat) (rest : List Nat) (hsh : ws.x.pixel_data.shape = d :: rest) :
    composed_input cfg ws = .ok
      (⟨d :: 3 :: rest, catRange (fun w =>
        (((ws.x.pixel_data.data.map fun _ => (0 : Int)).drop
            (w * natProd rest)).take (natProd rest)) ++
        ((ws.x.pixel_data.data.drop (w * natProd rest)).take (natProd rest)) ++
        ((ws.nuc.pixel_data.data.drop (w * natProd rest)).take (natProd rest))) d⟩,
       [2, 3]) := by
  unfold composed_input
  rw [ite_cond_true _ (composed_cond_true cfg hsup hmode), ite_cond_true _ h3,
    stack_axis1_ok _ _ hs d rest hsh]
  rfl

theorem load_models_loadsOnly (cfg : Config) (s : ModelState) :
    ∀ e ∈ (load_models cfg s).2, isLoadEvent e = true := by
  intro e he
  by_cases h1 : s.current_model_params = some (resolved_model_name cfg, cfg.use_gpu) <;>
  by_cases hd : cfg.denoise = true <;>
  by_cases h2 : s.recon_model_params =
    some (cfg.denoise_type, cfg.use_gpu, (cfg.mode != "nuclei") && cfg.supply_nuclei) <;>
  simp [load_models, h1, hd, h2] at he <;>
  first
  | (subst he; rfl)
  | (rcases he with he | he <;> subst he <;> rfl)

theorem segArgsOf_cons_load (e : Event) (l : List Event) (h : isLoadEvent e = true) :
    segArgsOf (e :: l) = segArgsOf l := by
  cases e <;> simp [isLoadEvent] at h <;> simp [segArgsOf, List.filterMap_cons]

theorem segArgsOf_loads (l : List Event) (h : ∀ e ∈ l, isLoadEvent e = true) :
    segArgsOf l = [] := by
  induction l with
  | nil => rfl
  | cons e l ih =>
    rw [segArgsOf_cons_load e l (h e (by simp))]
    exact ih fun x hx => h x (by simp [hx])

theorem firstEvalInput_cons_load (e : Event) (l : List Event)
    (h : isLoadEvent e = true) :
    firstEvalInput (e :: l) = firstEvalInput l := by
  cases e <;> simp [isLoadEvent] at h <;> rfl

theorem firstEvalInput_append_loads (l1 l2 : List Event)
    (h : ∀ e ∈ l1, isLoadEvent e = true) :
    firstEvalInput (l1 ++ l2) = firstEvalInput l2 := by
  induction l1 with
  | nil => rfl
  | cons e l ih =>
    rw [List.cons_append, firstEvalInput_cons_load _ _ (h e (by simp))]
    exact ih fun x hx => h x (by simp [hx])

theorem firstEvalChannels_cons_load (e : Event) (l : List Event)
    (h : isLoadEvent e = true) :
    firstEvalChannels (e :: l) = firstEvalChannels l := by
  cases e <;> simp [isLoadEvent] at h <;> rfl

theorem firstEvalChannels_append_loads (l1 l2 : List Event)
    (h : ∀ e ∈ l1, isLoadEvent e = true) :
    firstEvalChannels (l1 ++ l2) = firstEvalChannels l2 := by
  induction l1 with
  | nil => rfl
  | cons e l ih =>
    rw [List.cons_append, firstEvalChannels_cons_load _ _ (h e (by simp))]
    exact ih fun x hx => h x (by simp [hx])

theorem run_multichannel_eq (cfg : Config) (ws : Workspace) (orc : Oracles)
    (s0 : ModelState) (hmc : ws.x.multichannel = true) :
    run cfg ws orc s0 = ⟨s0, [],
      .error "Color images are not currently supported. Please provide greyscale images."⟩ := by
  unfold run
  rw [ite_cond_true _ hmc]

theorem run_ok_parts (cfg : Config) (ws : Workspace) (orc : Oracles) (s0 : ModelState)
    (t : NArr) (ch : List Nat) (hmc : ws.x.multichannel = false)
    (hc : composed_input cfg ws = .ok (t, ch)) :
    (run cfg ws orc s0).finalState = (load_models cfg s0).1 ∧
    (run cfg ws orc s0).events =
      (load_models cfg s0).2 ++ (run_dn cfg ws orc s0).events ++
      [Event.segEval (run_dn cfg ws orc s0).input (run_args cfg ws orc s0),
       Event.addObjects
         (post_process cfg ws.x.pixel_data.shape (run_seg_output cfg ws orc s0))] ++
      (if cfg.save_probabilities then
        [Event.addImage (orc.resizeSmooth
          (orc.segEval (load_models cfg s0).1.current_model (run_dn cfg ws orc s0).input
            (run_args cfg ws orc s0)).2
          (post_process cfg ws.x.pixel_data.shape (run_seg_output cfg ws orc s0)).shape)]
       else []) ∧
    (run cfg ws orc s0).labels? =
      some (post_process cfg ws.x.pixel_data.shape (run_seg_output cfg ws orc s0)) := by
  have hdn : run_dn cfg ws orc s0 =
      denoise_stage cfg orc (load_models cfg s0).1 t (resolved_diam cfg) ch := by
    unfold run_dn
    rw [hc]
  unfold run RunResult.labels? run_seg_output run_args
  rw [ite_cond_false _ hmc, hc, hdn]
  by_cases hp : cfg.save_probabilities = true <;> simp [hp]

theorem segArgsOf_append (l1 l2 : List Event) :
    segArgsOf (l1 ++ l2) = segArgsOf l1 ++ segArgsOf l2 := by
  simp [segArgsOf, List.filterMap_append]

theorem segArgsOf_denoise_stage (cfg : Config) (orc : Oracles) (s1 : ModelState)
    (x_data : NArr) (diam0 : Option Int) (chans : List Nat) :
    segArgsOf (denoise_stage cfg orc s1 x_data diam0 chans).events = [] := by
  rcases hrm : s1.recon_model with _ | r <;> simp [denoise_stage, hrm, segArgsOf]

theorem run_segArgs (cfg : Config) (ws : Workspace) (orc : Oracles) (s0 : ModelState)
    (t : NArr) (ch : List Nat) (hmc : ws.x.multichannel = false)
    (hc : composed_input cfg ws = .ok (t, ch)) :
    segArgsOf (run cfg ws orc s0).events = [run_args cfg ws orc s0] := by
  obtain ⟨-, hev, -⟩ := run_ok_parts cfg ws orc s0 t ch hmc hc
  have hdn : run_dn cfg ws orc s0 =
      denoise_stage cfg orc (load_models cfg s0).1 t (resolved_diam cfg) ch := by
    unfold run_dn
    rw [hc]
  rw [hev, segArgsOf_append, segArgsOf_append, segArgsOf_append,
    segArgsOf_loads _ (load_models_loadsOnly cfg s0), hdn, segArgsOf_denoise_stage]
  by_cases hp : cfg.save_probabilities = true <;> simp [hp, segArgsOf]

theorem run_firstEval (cfg : Config) (ws : Workspace) (orc : Oracles) (s0 : ModelState)
    (t : NArr) (ch : List Nat) (hmc : ws.x.multichannel = false)
    (hc : composed_input cfg ws = .ok (t, ch)) :
    firstEvalInput (run cfg ws orc s0).events = some t ∧
    firstEvalChannels (run cfg ws orc s0).events = some ch := by
  obtain ⟨-, hev, -⟩ := run_ok_parts cfg ws orc s0 t ch hmc hc
  have hdn : run_dn cfg ws orc s0 =
      denoise_stage cfg orc (load_models cfg s0).1 t (resolved_diam cfg) ch := by
    unfold run_dn
    rw [hc]
  rw [hev]
  simp only [List.append_assoc]
  rw [firstEvalInput_append_loads _ _ (load_models_loadsOnly cfg s0),
    firstEvalChannels_append_loads _ _ (load_models_loadsOnly cfg s0), hdn]
  unfold run_args
  rw [hdn]
  rcases hrm : (load_models cfg s0).1.recon_model with _ | r <;>
    simp [denoise_stage, hrm, firstEvalInput, firstEvalChannels, seg_args]

theorem load_models_recon_off (cfg : Config) (s : ModelState)
    (hd : cfg.denoise = false) :
    (load_models cfg s).1.recon_model = none ∧
    (load_models cfg s).1.recon_model_params = none := by
  by_cases h1 : s.current_model_params = some (resolved_model_name cfg, cfg.use_gpu) <;>
    simp [load_models, h1, hd]

theorem load_models_recon_on (cfg : Config) (s : ModelState)
    (hd : cfg.denoise = true) (hcoh : s.denoiserCoherent) :
    ∃ r, (load_models cfg s).1.recon_model = some r := by
  by_cases h2 : s.recon_model_params =
      some (cfg.denoise_type, cfg.use_gpu, (cfg.mode != "nuclei") && cfg.supply_nuclei)
  · rcases hrm : s.recon_model with _ | r
    · exact absurd (hcoh hrm ▸ h2) (by simp [hcoh hrm])
    · by_cases h1 : s.current_model_params =
          some (resolved_model_name cfg, cfg.use_gpu) <;>
        exact ⟨r, by simp [load_models, h1, hd, h2, hrm]⟩
  · by_cases h1 : s.current_model_params =
        some (resolved_model_name cfg, cfg.use_gpu) <;>
      exact ⟨⟨cfg.denoise_type, cfg.use_gpu, (cfg.mode != "nuclei") && cfg.supply_nuclei⟩,
        by simp [load_models, h1, hd, h2]⟩

/-! ## Lemmas about the post-processing steps -/

theorem remove_edge_get (a : NArr) (p : List Nat) :
    (remove_edge_masks a).get? p =
      (a.get? p).map fun v => if v ∈ edgeLabels a then 0 else v :=
  get?_map_data _ a p

theorem remove_edge_shape (a : NArr) : (remove_edge_masks a).shape = a.shape := rfl

theorem get?_mem {a : NArr} {p : List Nat} {v : Int} (h : a.get? p = some v) :
    v ∈ a.data := by
  unfold NArr.get? at h
  split at h
  · exact nth_mem h
  · simp at h

/-- Every object with a boundary pixel is entirely absent after edge-mask removal. -/
theorem remove_edge_absent (a : NArr) (L : Int) (hL : L ≠ 0)
    (h : ∃ p, isBoundaryIdx a.shape p = true ∧ a.get? p = some L) :
    ∀ p, (remove_edge_masks a).get? p ≠ some L := by
  intro p hp
  have hmem : L ∈ edgeLabels a := (mem_edgeLabels a L).mpr h
  rw [remove_edge_get] at hp
  rcases hv : a.get? p with _ | v <;> rw [hv] at hp
  · simp at hp
  · have hfv : (if v ∈ edgeLabels a then 0 else v) = L := by
      simpa using hp
    by_cases hve : v ∈ edgeLabels a
    · rw [if_pos hve] at hfv
      exact hL hfv.symm
    · rw [if_neg hve] at hfv
      exact hve (hfv ▸ hmem)

/-- Every strictly interior object keeps its footprint and identity unchanged. -/
theorem remove_edge_interior (a : NArr) (L : Int) (hL : L ≠ 0)
    (h : ∀ p, isBoundaryIdx a.shape p = true → a.get? p ≠ some L) :
    ∀ p, ((remove_edge_masks a).get? p = some L ↔ a.get? p = some L) := by
  intro p
  have hmem : L ∉ edgeLabels a := by
    intro hm
    rcases (mem_edgeLabels a L).mp hm with ⟨q, hb, hg⟩
    exact h q hb hg
  rw [remove_edge_get]
  constructor
  · intro hp
    rcases hv : a.get? p with _ | v <;> rw [hv] at hp
    · simp at hp
    · have hfv : (if v ∈ edgeLabels a then 0 else v) = L := by
        simpa using hp
      by_cases hve : v ∈ edgeLabels a
      · rw [if_pos hve] at hfv
        exact absurd hfv.symm hL
      · rw [if_neg hve] at hfv
        rw [hfv]
  · intro hp
    rw [hp]
    simp [hmem]

theorem resize_nn_shape (a : NArr) (shp : List Nat) : (resize_nn a shp).shape = shp :=
  rfl

/-- Order-0 resizing is label-preserving: every output value is a background 0 or a
value of the input. -/
theorem resize_nn_values (a : NArr) (shp : List Nat) (v : Int)
    (hv : v ∈ (resize_nn a shp).data) : v = 0 ∨ v ∈ a.data := by
  simp only [resize_nn, List.mem_map] at hv
  rcases hv with ⟨p, -, hp⟩
  rcases hg : a.get? (nnIdxMap shp a.shape p) with _ | w <;> rw [hg] at hp
  · left
    simpa using hp.symm
  · right
    have : w = v := by simpa using hp
    exact this ▸ get?_mem hg

theorem edge_step_shape (cfg : Config) (y : NArr) :
    (edge_step cfg y).shape = y.shape := by
  unfold edge_step
  split <;> rfl

theorem post_process_shape (cfg : Config) (origShape : List Nat) (y : NArr)
    (hcond : (cfg.denoise && strContains cfg.denoise_type "upsample") = true) :
    (post_process cfg origShape y).shape = origShape := by
  unfold post_process resize_step
  rw [edge_step_shape, ite_cond_true _ hcond]
  rfl

/-! ## Further cache lemmas -/

theorem load_models_params (cfg : Config) (s : ModelState) :
    (load_models cfg s).1.current_model_params =
      some (resolved_model_name cfg, cfg.use_gpu) := by
  by_cases h1 : s.current_model_params = some (resolved_model_name cfg, cfg.use_gpu) <;>
  by_cases hd : cfg.denoise = true <;>
  by_cases h2 : s.recon_model_params =
    some (cfg.denoise_type, cfg.use_gpu, (cfg.mode != "nuclei") && cfg.supply_nuclei) <;>
  simp [load_models, h1, hd, h2]

theorem modelLoadsOf_load_models (cfg : Config) (s : ModelState) :
    modelLoadsOf (load_models cfg s).2 =
      if s.current_model_params = some (resolved_model_name cfg, cfg.use_gpu) then []
      else [(resolved_model_name cfg, cfg.use_gpu)] := by
  by_cases h1 : s.current_model_params = some (resolved_model_name cfg, cfg.use_gpu) <;>
  by_cases hd : cfg.denoise = true <;>
  by_cases h2 : s.recon_model_params =
    some (cfg.denoise_type, cfg.use_gpu, (cfg.mode != "nuclei") && cfg.supply_nuclei) <;>
  simp [load_models, h1, hd, h2, modelLoadsOf, List.filterMap_cons]

theorem denoiserLoadsOf_load_models (cfg : Config) (s : ModelState) :
    denoiserLoadsOf (load_models cfg s).2 =
      if cfg.denoise = true then
        (if s.recon_model_params = some (cfg.denoise_type, cfg.use_gpu,
            (cfg.mode != "nuclei") && cfg.supply_nuclei) then []
         else [(cfg.denoise_type, cfg.use_gpu, (cfg.mode != "nuclei") && cfg.supply_nuclei)])
      else [] := by
  by_cases h1 : s.current_model_params = some (resolved_model_name cfg, cfg.use_gpu) <;>
  by_cases hd : cfg.denoise = true <;>
  by_cases h2 : s.recon_model_params =
    some (cfg.denoise_type, cfg.use_gpu, (cfg.mode != "nuclei") && cfg.supply_nuclei) <;>
  simp [load_models, h1, hd, h2, denoiserLoadsOf, List.filterMap_cons]

theorem load_models_model_of_match (cfg : Config) (s : ModelState)
    (h1 : s.current_model_params = some (resolved_model_name cfg, cfg.use_gpu)) :
    (load_models cfg s).1.current_model = s.current_model := by
  by_cases hd : cfg.denoise = true <;>
  by_cases h2 : s.recon_model_params =
    some (cfg.denoise_type, cfg.use_gpu, (cfg.mode != "nuclei") && cfg.supply_nuclei) <;>
  simp [load_models, h1, hd, h2]

theorem resolved_model_name_gpu (cfg : Config) (b : Bool) :
    resolved_model_name { cfg with use_gpu := b } = resolved_model_name cfg := rfl

/-! ## The claims -/

/-- C9: a multichannel primary image raises the configuration error before any model
load, inference call or publication: the outcome is the error, the event trace is
empty (so no load, eval, object-sink or image-sink event occurred), and the cached
state is untouched. -/
theorem c9_multichannel_rejected (cfg : Config) (ws : Workspace) (orc : Oracles)
    (s0 : ModelState) (hmc : ws.x.multichannel = true) :
    (run cfg ws orc s0).outcome =
      .error "Color images are not currently supported. Please provide greyscale images." ∧
    (run cfg ws orc s0).events = [] ∧
    (run cfg ws orc s0).finalState = s0 := by
  rw [run_multichannel_eq cfg ws orc s0 hmc]
  exact ⟨rfl, rfl, rfl⟩

theorem c9_witness :
    imgColor.multichannel = true ∧
    ((run baseConfig ⟨imgColor, img2x2b⟩ orcId initState).outcome =
      .error "Color images are not currently supported. Please provide greyscale images." ∧
     (run baseConfig ⟨imgColor, img2x2b⟩ orcId initState).events = [] ∧
     (run baseConfig ⟨imgColor, img2x2b⟩ orcId initState).finalState = initState) :=
  ⟨rfl, c9_multichannel_rejected baseConfig ⟨imgColor, img2x2b⟩ orcId initState rfl⟩

/-- C8: the model cache.  A request whose resolved identity (model name or custom
path, accelerator flag) equals the stored key returns the existing handle with no
load event; an unequal key performs exactly one load and replaces the stored key;
hence a second identical invocation loads nothing and flipping only the accelerator
flag triggers exactly one reload. -/
theorem c8_model_cache (cfg : Config) (s : ModelState) :
    (s.current_model_params = some (resolved_model_name cfg, cfg.use_gpu) →
      (load_models cfg s).1.current_model = s.current_model ∧
      modelLoadsOf (load_models cfg s).2 = []) ∧
    (s.current_model_params ≠ some (resolved_model_name cfg, cfg.use_gpu) →
      modelLoadsOf (load_models cfg s).2 = [(resolved_model_name cfg, cfg.use_gpu)] ∧
      (load_models cfg s).1.current_model_params =
        some (resolved_model_name cfg, cfg.use_gpu)) ∧
    modelLoadsOf (load_models cfg ((load_models cfg s).1)).2 = [] ∧
    (∀ b : Bool, b ≠ cfg.use_gpu →
      modelLoadsOf (load_models { cfg with use_gpu := b } ((load_models cfg s).1)).2 =
        [(resolved_model_name cfg, b)]) := by
  refine ⟨?_, ?_, ?_, ?_⟩
  · intro h1
    exact ⟨load_models_model_of_match cfg s h1,
      by rw [modelLoadsOf_load_models, if_pos h1]⟩
  · intro h1
    exact ⟨by rw [modelLoadsOf_load_models, if_neg h1], load_models_params cfg s⟩
  · rw [modelLoadsOf_load_models, if_pos (load_models_params cfg s)]
  · intro b hb
    rw [modelLoadsOf_load_models, resolved_model_name_gpu, if_neg, resolved_model_name_gpu]
    rw [load_models_params cfg s]
    simp only [Option.some.injEq, Prod.mk.injEq, not_and]
    intro _ h
    exact hb h.symm

theorem c8_witness :
    (initState.current_model_params ≠
        some (resolved_model_name baseConfig, baseConfig.use_gpu) ∧
     true ≠ baseConfig.use_gpu) ∧
    ((initState.current_model_params ≠
        some (resolved_model_name baseConfig, baseConfig.use_gpu) →
      modelLoadsOf (load_models baseConfig initState).2 =
        [(resolved_model_name baseConfig, baseConfig.use_gpu)] ∧
      (load_models baseConfig initState).1.current_model_params =
        some (resolved_model_name baseConfig, baseConfig.use_gpu)) ∧
     modelLoadsOf (load_models baseConfig ((load_models baseConfig initState).1)).2 = [] ∧
     modelLoadsOf (load_models { baseConfig with use_gpu := true }
        ((load_models baseConfig initState).1)).2 =
       [(resolved_model_name baseConfig, true)]) :=
  ⟨⟨by decide, by decide⟩,
    (c8_model_cache baseConfig initState).2.1,
    (c8_model_cache baseConfig initState).2.2.1,
    (c8_model_cache baseConfig initState).2.2.2 true (by decide)⟩

/-- C10 (implicit): an invocation of the model-loading step with denoising disabled
resets both the cached denoiser handle and its identity key to `None`; consequently a
later invocation with denoising enabled always performs a fresh denoiser load, even
for an identical denoiser identity. -/
theorem c10_denoiser_reset (cfg : Config) (s : ModelState) (hd : cfg.denoise = false) :
    ((load_models cfg s).1.recon_model = none ∧
     (load_models cfg s).1.recon_model_params = none) ∧
    (∀ cfg2 : Config, cfg2.denoise = true →
      denoiserLoadsOf (load_models cfg2 ((load_models cfg s).1)).2 =
        [(cfg2.denoise_type, cfg2.use_gpu, (cfg2.mode != "nuclei") && cfg2.supply_nuclei)]) := by
  refine ⟨load_models_recon_off cfg s hd, ?_⟩
  intro cfg2 hd2
  rw [denoiserLoadsOf_load_models, if_pos hd2, if_neg]
  rw [(load_models_recon_off cfg s hd).2]
  simp

theorem c10_witness :
    (baseConfig.denoise = false ∧
     Config.denoise { baseConfig with denoise := true } = true) ∧
    (((load_models baseConfig initState).1.recon_model = none ∧
      (load_models baseConfig initState).1.recon_model_params = none) ∧
     denoiserLoadsOf (load_models { baseConfig with denoise := true }
        ((load_models baseConfig initState).1)).2 =
       [({ baseConfig with denoise := true }.denoise_type,
         { baseConfig with denoise := true }.use_gpu,
         ({ baseConfig with denoise := true }.mode != "nuclei") &&
           { baseConfig with denoise := true }.supply_nuclei)]) :=
  ⟨⟨rfl, rfl⟩,
    (c10_denoiser_reset baseConfig initState rfl).1,
    (c10_denoiser_reset baseConfig initState rfl).2 { baseConfig with denoise := true } rfl⟩

theorem visible_no_stitch (cfg : Config) (h3 : cfg.do_3D = true) :
    SettingId.stitch_threshold ∉ visible_settings cfg := by
  intro hmem
  unfold visible_settings at hmem
  repeat' split at hmem
  all_goals simp_all

theorem composed_channels_cases (cfg : Config) (ws : Workspace) (t : NArr)
    (ch : List Nat) (hc : composed_input cfg ws = .ok (t, ch)) :
    ch = if (cfg.mode != "nuclei") && cfg.supply_nuclei then [2, 3] else [0, 0] := by
  unfold composed_input at hc
  cases hb : ((cfg.mode != "nuclei") && cfg.supply_nuclei)
  · rw [hb, ite_cond_false false rfl] at hc
    simp at hc
    simp [hc.2]
  · rw [hb, ite_cond_true true rfl] at hc
    rcases hst : (if cfg.do_3D = true then
        np_stack_axis1_3 (np_zeros_like ws.x.pixel_data) ws.x.pixel_data
          ws.nuc.pixel_data
      else np_stack_last3 (np_zeros_like ws.x.pixel_data) ws.x.pixel_data
        ws.nuc.pixel_data) with e | t2 <;> rw [hst] at hc <;>
      simp [Except.map] at hc
    simp [hc.2]

/-- C3: for a run with a denoiser, the diameter fed to the segmentation call is
overridden to the upsampler's fixed native target — 30 for `upsample_cyto3`, 17 for
`upsample_nuclei` — regardless of the user's requested diameter, and is left at the
user-resolved diameter for non-upsampling denoisers. -/
theorem c3_upsample_diameter (cfg : Config) (ws : Workspace) (orc : Oracles)
    (s0 : ModelState) (t : NArr) (ch : List Nat)
    (hmc : ws.x.multichannel = false) (hc : composed_input cfg ws = .ok (t, ch))
    (hd : cfg.denoise = true) (hcoh : s0.denoiserCoherent) :
    segArgsOf (run cfg ws orc s0).events = [run_args cfg ws orc s0] ∧
    (run_args cfg ws orc s0).diameter =
      (if cfg.denoise_type = "upsample_cyto3" then some 30
       else if cfg.denoise_type = "upsample_nuclei" then some 17
       else resolved_diam cfg) := by
  refine ⟨run_segArgs cfg ws orc s0 t ch hmc hc, ?_⟩
  obtain ⟨r, hr⟩ := load_models_recon_on cfg s0 hd hcoh
  unfold run_args run_dn
  rw [hc]
  simp [denoise_stage, hr, seg_args]

theorem c3_witness :
    (wsPlain.x.multichannel = false ∧
     composed_input cfgUpsample wsPlain = .ok (img2x2.pixel_data, [0, 0]) ∧
     cfgUpsample.denoise = true) ∧
    (segArgsOf (run cfgUpsample wsPlain orcId initState).events =
       [run_args cfgUpsample wsPlain orcId initState] ∧
     (run_args cfgUpsample wsPlain orcId initState).diameter =
       (if cfgUpsample.denoise_type = "upsample_cyto3" then some 30
        else if cfgUpsample.denoise_type = "upsample_nuclei" then some 17
        else resolved_diam cfgUpsample)) :=
  ⟨⟨rfl, rfl, rfl⟩,
    c3_upsample_diameter cfgUpsample wsPlain orcId initState img2x2.pixel_data [0, 0]
      rfl rfl rfl (fun _ => rfl)⟩

/-- C4 counterexample: with the non-upsampling denoiser `denoise_cyto3` consuming an
auxiliary-channel tensor, the channel pair passed to segmentation is still collapsed
to (0,1), refuting "collapsed if and only if the denoiser is an upsampling
variant". -/
theorem c4_counterexample :
    ¬ (∀ (cfg : Config) (ws : Workspace) (orc : Oracles) (s0 : ModelState),
        cfg.supply_nuclei = true → cfg.mode ≠ "nuclei" →
        ∀ a ∈ segArgsOf (run cfg ws orc s0).events,
          (a.channels = [0, 1] ↔
            cfg.denoise = true ∧ strContains cfg.denoise_type "upsample" = true)) := by
  intro h
  have hmem : run_args cfgAuxDenoise wsPlain orcId initState ∈
      segArgsOf (run cfgAuxDenoise wsPlain orcId initState).events := by
    rw [run_segArgs cfgAuxDenoise wsPlain orcId initState _ _ rfl rfl]
    exact List.mem_singleton.mpr rfl
  have h1 := h cfgAuxDenoise wsPlain orcId initState rfl (by decide) _ hmem
  have h2 := (h1.mp rfl).2
  exact absurd h2 (by decide)

/-- C4 (amended): the channel pair passed to segmentation is collapsed to (0,1)
whenever ANY cached denoiser (upsampling or not) consumed the composed tensor and the
tensor carried the auxiliary channel; without a denoiser, or without the auxiliary
channel, the pair is passed through unchanged. -/
theorem c4_channels_collapse (cfg : Config) (ws : Workspace) (orc : Oracles)
    (s0 : ModelState) (t : NArr) (ch : List Nat)
    (hmc : ws.x.multichannel = false) (hc : composed_input cfg ws = .ok (t, ch))
    (hcoh : s0.denoiserCoherent) :
    segArgsOf (run cfg ws orc s0).events = [run_args cfg ws orc s0] ∧
    ch = (if (cfg.mode != "nuclei") && cfg.supply_nuclei then [2, 3] else [0, 0]) ∧
    (run_args cfg ws orc s0).channels =
      (if cfg.denoise = true then
        (if (cfg.mode != "nuclei") && cfg.supply_nuclei then [0, 1] else ch)
       else ch) := by
  refine ⟨run_segArgs cfg ws orc s0 t ch hmc hc,
    composed_channels_cases cfg ws t ch hc, ?_⟩
  rcases hd : cfg.denoise
  · have hrm := (load_models_recon_off cfg s0 hd).1
    unfold run_args run_dn
    rw [hc]
    simp [denoise_stage, hrm, seg_args, hd]
  · obtain ⟨r, hr⟩ := load_models_recon_on cfg s0 hd hcoh
    unfold run_args run_dn
    rw [hc]
    simp [denoise_stage, hr, seg_args, hd]

theorem c4_witness :
    (wsPlain.x.multichannel = false ∧
     isOkB (composed_input cfgAuxDenoise wsPlain) = true) ∧
    (segArgsOf (run cfgAuxDenoise wsPlain orcId initState).events =
       [run_args cfgAuxDenoise wsPlain orcId initState] ∧
     (run_args cfgAuxDenoise wsPlain orcId initState).channels =
       (if cfgAuxDenoise.denoise = true then
         (if (cfgAuxDenoise.mode != "nuclei") && cfgAuxDenoise.supply_nuclei then [0, 1]
          else [2, 3])
        else [2, 3])) := by
  refine ⟨⟨rfl, by decide⟩, ?_⟩
  have h := c4_channels_collapse cfgAuxDenoise wsPlain orcId initState
    (composed_tensor cfgAuxDenoise wsPlain) [2, 3] rfl (by rfl) (fun _ => rfl)
  exact ⟨h.1, h.2.2⟩

/-- C2 counterexample: with expected diameter 0, a non-sized model family and 3D mode,
the run succeeds and the diameter passed to the segmentation call is None — neither a
rejection nor a literal 0 pass-through. -/
theorem c2_counterexample :
    ¬ (∀ (cfg : Config) (ws : Workspace) (orc : Oracles) (s0 : ModelState),
        cfg.expected_diameter = 0 →
        (cfg.mode ∉ SIZED_MODELS ∨ cfg.do_3D = true) →
        isOkB (run cfg ws orc s0).outcome = false ∨
        ∀ a ∈ segArgsOf (run cfg ws orc s0).events, a.diameter = some 0) := by
  intro h
  rcases h cfgZeroDiam wsPlain orcId initState rfl (Or.inl (by decide)) with h1 | h1
  · exact absurd h1 (by decide)
  · have hmem : run_args cfgZeroDiam wsPlain orcId initState ∈
        segArgsOf (run cfgZeroDiam wsPlain orcId initState).events := by
      rw [run_segArgs cfgZeroDiam wsPlain orcId initState _ _ rfl rfl]
      exact List.mem_singleton.mpr rfl
    exact absurd (h1 _ hmem) (by decide)

/-- C2 (amended): an expected diameter of 0 is translated to an unset (None) diameter
unconditionally — for every model family, sized or not, and in both 2D and 3D mode —
and the None reaches the segmentation call whenever no upsampling denoiser later
overrides it. -/
theorem c2_diam_zero_unconditional (cfg : Config) (ws : Workspace) (orc : Oracles)
    (s0 : ModelState) (t : NArr) (ch : List Nat)
    (hmc : ws.x.multichannel = false) (hc : composed_input cfg ws = .ok (t, ch))
    (h0 : cfg.expected_diameter ≤ 0)
    (hup : cfg.denoise = true →
      cfg.denoise_type ≠ "upsample_cyto3" ∧ cfg.denoise_type ≠ "upsample_nuclei") :
    resolved_diam cfg = none ∧
    segArgsOf (run cfg ws orc s0).events = [run_args cfg ws orc s0] ∧
    (run_args cfg ws orc s0).diameter = none := by
  have hdiam : resolved_diam cfg = none := by
    unfold resolved_diam
    rw [if_neg (by omega)]
  refine ⟨hdiam, run_segArgs cfg ws orc s0 t ch hmc hc, ?_⟩
  rcases hrm : (load_models cfg s0).1.recon_model with _ | r
  · unfold run_args run_dn
    rw [hc]
    simp [denoise_stage, hrm, seg_args, hdiam]
  · have hd : cfg.denoise = true := by
      by_contra hdf
      have h2 := (load_models_recon_off cfg s0 (by simpa using hdf)).1
      rw [h2] at hrm
      cases hrm
    obtain ⟨hu1, hu2⟩ := hup hd
    unfold run_args run_dn
    rw [hc]
    simp [denoise_stage, hrm, seg_args, hu1, hu2, hdiam]

theorem c2_witness :
    (wsPlain.x.multichannel = false ∧ cfgZeroDiam.expected_diameter ≤ 0 ∧
     cfgZeroDiam.do_3D = true ∧ cfgZeroDiam.mode ∉ SIZED_MODELS) ∧
    (resolved_diam cfgZeroDiam = none ∧
     segArgsOf (run cfgZeroDiam wsPlain orcId initState).events =
       [run_args cfgZeroDiam wsPlain orcId initState] ∧
     (run_args cfgZeroDiam wsPlain orcId initState).diameter = none) :=
  ⟨⟨rfl, by decide, rfl, by decide⟩,
    c2_diam_zero_unconditional cfgZeroDiam wsPlain orcId initState img2x2.pixel_data
      [0, 0] rfl rfl (by decide) (fun hd => absurd hd (by decide))⟩

/-- C6 counterexample: nothing in `run` prevents a single segmentation call from
receiving the 3D flag together with a positive stitch threshold; a configuration with
`do_3D` on and stitch threshold 1 produces exactly such a call. -/
theorem c6_counterexample :
    ¬ (∀ (cfg : Config) (ws : Workspace) (orc : Oracles) (s0 : ModelState),
        ∀ a ∈ segArgsOf (run cfg ws orc s0).events,
          ¬ (a.do_3D = true ∧ 0 < a.stitch_threshold)) := by
  intro h
  have hmem : run_args cfgStitch3D wsPlain orcId initState ∈
      segArgsOf (run cfgStitch3D wsPlain orcId initState).events := by
    rw [run_segArgs cfgStitch3D wsPlain orcId initState _ _ rfl rfl]
    exact List.mem_singleton.mpr rfl
  exact h cfgStitch3D wsPlain orcId initState _ hmem ⟨rfl, by decide⟩

/-- C6 (amended): the 3D flag and the stitch threshold settings are passed to the
segmentation call unconditionally; their mutual exclusion is enforced only at the UI
level, where the stitch-threshold setting is hidden while 3D mode is on. -/
theorem c6_stitch_passthrough (cfg : Config) (ws : Workspace) (orc : Oracles)
    (s0 : ModelState) (t : NArr) (ch : List Nat)
    (hmc : ws.x.multichannel = false) (hc : composed_input cfg ws = .ok (t, ch)) :
    segArgsOf (run cfg ws orc s0).events = [run_args cfg ws orc s0] ∧
    (run_args cfg ws orc s0).do_3D = cfg.do_3D ∧
    (run_args cfg ws orc s0).stitch_threshold = cfg.stitch_threshold ∧
    (cfg.do_3D = true → SettingId.stitch_threshold ∉ visible_settings cfg) :=
  ⟨run_segArgs cfg ws orc s0 t ch hmc hc, rfl, rfl, visible_no_stitch cfg⟩

theorem c6_witness :
    (wsPlain.x.multichannel = false ∧
     isOkB (composed_input cfgStitch3D wsPlain) = true ∧ cfgStitch3D.do_3D = true) ∧
    (segArgsOf (run cfgStitch3D wsPlain orcId initState).events =
       [run_args cfgStitch3D wsPlain orcId initState] ∧
     (run_args cfgStitch3D wsPlain orcId initState).do_3D = cfgStitch3D.do_3D ∧
     (run_args cfgStitch3D wsPlain orcId initState).stitch_threshold =
       cfgStitch3D.stitch_threshold ∧
     SettingId.stitch_threshold ∉ visible_settings cfgStitch3D) := by
  refine ⟨⟨rfl, by decide, rfl⟩, ?_⟩
  have h := c6_stitch_passthrough cfgStitch3D wsPlain orcId initState
    img2x2.pixel_data [0, 0] rfl rfl
  exact ⟨h.1, h.2.1, h.2.2.1, h.2.2.2 rfl⟩

/-- C5: edge-mask removal is applied to the published label map exactly when the
`remove_edge_masks` setting is on; when applied, every object with a boundary pixel is
absent from the result, every strictly interior object keeps its footprint and
identity unchanged (so removed identities cannot reappear), and when not requested
this step publishes the label map unchanged. -/
theorem c5_edge_removal (cfg : Config) (ws : Workspace) (orc : Oracles)
    (s0 : ModelState) (t : NArr) (ch : List Nat)
    (hmc : ws.x.multichannel = false) (hc : composed_input cfg ws = .ok (t, ch)) :
    (run cfg ws orc s0).labels? =
      some (edge_step cfg
        (resize_step cfg ws.x.pixel_data.shape (run_seg_output cfg ws orc s0))) ∧
    (cfg.remove_edge_masks = false → ∀ y, edge_step cfg y = y) ∧
    (cfg.remove_edge_masks = true → ∀ y,
      edge_step cfg y = remove_edge_masks y ∧
      (remove_edge_masks y).shape = y.shape ∧
      ∀ L : Int, L ≠ 0 →
        ((∃ p, isBoundaryIdx y.shape p = true ∧ y.get? p = some L) →
          ∀ p, (remove_edge_masks y).get? p ≠ some L) ∧
        ((∀ p, isBoundaryIdx y.shape p = true → y.get? p ≠ some L) →
          ∀ p, ((remove_edge_masks y).get? p = some L ↔ y.get? p = some L))) := by
  refine ⟨?_, ?_, ?_⟩
  · exact (run_ok_parts cfg ws orc s0 t ch hmc hc).2.2
  · intro h y
    simp [edge_step, h]
  · intro h y
    exact ⟨by simp [edge_step, h], rfl, fun L hL =>
      ⟨remove_edge_absent y L hL, remove_edge_interior y L hL⟩⟩

theorem c5_witness :
    (wsPlain.x.multichannel = false ∧ baseConfig.remove_edge_masks = true) ∧
    ((run baseConfig wsPlain orcBig initState).labels? =
      some (edge_step baseConfig
        (resize_step baseConfig wsPlain.x.pixel_data.shape
          (run_seg_output baseConfig wsPlain orcBig initState))) ∧
     (edge_step baseConfig (⟨[3, 3], [7, 0, 0, 0, 4, 0, 7, 0, 0]⟩ : NArr) =
        remove_edge_masks ⟨[3, 3], [7, 0, 0, 0, 4, 0, 7, 0, 0]⟩ ∧
      remove_edge_masks (⟨[3, 3], [7, 0, 0, 0, 4, 0, 7, 0, 0]⟩ : NArr) =
        ⟨[3, 3], [0, 0, 0, 0, 4, 0, 0, 0, 0]⟩ ∧
      (∀ p, (remove_edge_masks (⟨[3, 3], [7, 0, 0, 0, 4, 0, 7, 0, 0]⟩ : NArr)).get? p ≠
        some 7))) := by
  have h := c5_edge_removal baseConfig wsPlain orcBig initState img2x2.pixel_data
    [0, 0] rfl rfl
  have h7 := ((h.2.2 rfl ⟨[3, 3], [7, 0, 0, 0, 4, 0, 7, 0, 0]⟩).2.2 7 (by decide)).1
    ⟨[0, 0], by decide, by decide⟩
  exact ⟨⟨rfl, rfl⟩, h.1,
    (h.2.2 rfl ⟨[3, 3], [7, 0, 0, 0, 4, 0, 7, 0, 0]⟩).1, by decide, h7⟩

/-- C7: after an upsampling denoiser, the published label map is the raw segmentation
output resized back to the original primary image's shape by the order-0
(nearest-neighbor, label-preserving) resize, with edge-mask removal applied only after
that resize; in particular the published label map has exactly the shape of the
original primary image. -/
theorem c7_upsample_roundtrip (cfg : Config) (ws : Workspace) (orc : Oracles)
    (s0 : ModelState) (t : NArr) (ch : List Nat)
    (hmc : ws.x.multichannel = false) (hc : composed_input cfg ws = .ok (t, ch))
    (hd : cfg.denoise = true) (hup : strContains cfg.denoise_type "upsample" = true) :
    (run cfg ws orc s0).labels? =
      some (edge_step cfg
        (resize_nn (run_seg_output cfg ws orc s0) ws.x.pixel_data.shape)) ∧
    (∀ y, resize_step cfg ws.x.pixel_data.shape y = resize_nn y ws.x.pixel_data.shape) ∧
    (∀ yv, (run cfg ws orc s0).labels? = some yv → yv.shape = ws.x.pixel_data.shape) ∧
    (∀ y v, v ∈ (resize_nn y ws.x.pixel_data.shape).data → v = 0 ∨ v ∈ y.data) := by
  have hcond : (cfg.denoise && strContains cfg.denoise_type "upsample") = true := by
    rw [hd, hup]
    rfl
  have hres : ∀ y, resize_step cfg ws.x.pixel_data.shape y =
      resize_nn y ws.x.pixel_data.shape := by
    intro y
    unfold resize_step
    rw [ite_cond_true _ hcond]
  have hlab := (run_ok_parts cfg ws orc s0 t ch hmc hc).2.2
  refine ⟨?_, hres, ?_, fun y v => resize_nn_values y ws.x.pixel_data.shape v⟩
  · rw [hlab]
    unfold post_process
    rw [hres]
  · intro yv hyv
    rw [hlab] at hyv
    injection hyv with h1
    rw [← h1]
    exact post_process_shape cfg ws.x.pixel_data.shape _ hcond

theorem c7_witness :
    (wsPlain.x.multichannel = false ∧ cfgUpsampleEdge.denoise = true ∧
     strContains cfgUpsampleEdge.denoise_type "upsample" = true) ∧
    ((run cfgUpsampleEdge wsPlain orcBig initState).labels? =
      some (edge_step cfgUpsampleEdge
        (resize_nn (run_seg_output cfgUpsampleEdge wsPlain orcBig initState)
          wsPlain.x.pixel_data.shape)) ∧
     (∀ yv, (run cfgUpsampleEdge wsPlain orcBig initState).labels? = some yv →
        yv.shape = wsPlain.x.pixel_data.shape)) := by
  have h := c7_upsample_roundtrip cfgUpsampleEdge wsPlain orcBig initState
    img2x2.pixel_data [0, 0] rfl rfl rfl (by decide)
  exact ⟨⟨rfl, rfl, by decide⟩, h.1, h.2.2.1⟩

/-- C1: channel composition.  Without an auxiliary image, or with the nuclei-only
family, the composed tensor is the primary image unchanged and the channel pair is
(0,0).  With an auxiliary image and a non-nuclei family, the composed tensor is the
3-plane stack of an all-zero plane, the primary image and the auxiliary image — the
new channel axis trailing in 2D mode and placed immediately after the leading depth
axis in 3D mode — and the channel pair is (2,3).  The composed tensor and channel
pair are exactly what the first inference call of `run` receives. -/
theorem c1_channel_composition (cfg : Config) (ws : Workspace) (orc : Oracles)
    (s0 : ModelState) :
    ((cfg.supply_nuclei = false ∨ cfg.mode = "nuclei") →
      composed_input cfg ws = .ok (ws.x.pixel_data, [0, 0])) ∧
    (cfg.supply_nuclei = true → cfg.mode ≠ "nuclei" → cfg.do_3D = false →
      ws.x.pixel_data.wf → ws.nuc.pixel_data.wf →
      ws.nuc.pixel_data.shape = ws.x.pixel_data.shape →
      composed_channels cfg ws = [2, 3] ∧
      (composed_tensor cfg ws).shape = ws.x.pixel_data.shape ++ [3] ∧
      (∀ p, validIdx ws.x.pixel_data.shape p = true →
        (composed_tensor cfg ws).get? (p ++ [0]) = some 0 ∧
        (composed_tensor cfg ws).get? (p ++ [1]) = ws.x.pixel_data.get? p ∧
        (composed_tensor cfg ws).get? (p ++ [2]) = ws.nuc.pixel_data.get? p)) ∧
    (cfg.supply_nuclei = true → cfg.mode ≠ "nuclei" → cfg.do_3D = true →
      ws.x.pixel_data.wf → ws.nuc.pixel_data.wf →
      ws.nuc.pixel_data.shape = ws.x.pixel_data.shape →
      ∀ d rest, ws.x.pixel_data.shape = d :: rest →
      composed_channels cfg ws = [2, 3] ∧
      (composed_tensor cfg ws).shape = d :: 3 :: rest ∧
      (∀ z p, z < d → validIdx rest p = true →
        (composed_tensor cfg ws).get? (z :: 0 :: p) = some 0 ∧
        (composed_tensor cfg ws).get? (z :: 1 :: p) = ws.x.pixel_data.get? (z :: p) ∧
        (composed_tensor cfg ws).get? (z :: 2 :: p) =
          ws.nuc.pixel_data.get? (z :: p))) ∧
    (ws.x.multichannel = false → isOkB (composed_input cfg ws) = true →
      firstEvalInput (run cfg ws orc s0).events = some (composed_tensor cfg ws) ∧
      firstEvalChannels (run cfg ws orc s0).events =
        some (composed_channels cfg ws)) := by
  refine ⟨composed_input_noaux cfg ws, ?_, ?_, ?_⟩
  · -- 2D auxiliary case: trailing channel axis
    intro hsup hmode h3 hwx hwn hs
    have hc := composed_input_aux2d cfg ws hsup hmode h3 hs
    have hct : composed_tensor cfg ws =
        ⟨ws.x.pixel_data.shape ++ [3],
          zip3Flat (ws.x.pixel_data.data.map fun _ => 0) ws.x.pixel_data.data
            ws.nuc.pixel_data.data⟩ := by
      unfold composed_tensor
      rw [hc]
    have hcc : composed_channels cfg ws = [2, 3] := by
      unfold composed_channels
      rw [hc]
    refine ⟨hcc, by rw [hct], ?_⟩
    intro p hv
    obtain ⟨t2, hok, hsh, h0, h1, h2⟩ :=
      stack_last3_spec ws.x.pixel_data ws.nuc.pixel_data hwx hwn hs p hv
    rw [stack_last3_ok _ _ hs] at hok
    injection hok with ht
    rw [hct, ht]
    exact ⟨h0, h1, h2⟩
  · -- 3D auxiliary case: channel axis after the depth axis
    intro hsup hmode h3 hwx hwn hs d rest hsh
    have hc := composed_input_aux3d cfg ws hsup hmode h3 hs d rest hsh
    have hct : composed_tensor cfg ws =
        ⟨d :: 3 :: rest, catRange (fun w =>
          (((ws.x.pixel_data.data.map fun _ => (0 : Int)).drop
              (w * natProd rest)).take (natProd rest)) ++
          ((ws.x.pixel_data.data.drop (w * natProd rest)).take (natProd rest)) ++
          ((ws.nuc.pixel_data.data.drop (w * natProd rest)).take (natProd rest))) d⟩ := by
      unfold composed_tensor
      rw [hc]
    have hcc : composed_channels cfg ws = [2, 3] := by
      unfold composed_channels
      rw [hc]
    refine ⟨hcc, by rw [hct], ?_⟩
    intro z p hz hp
    obtain ⟨t2, hok, hsh2, h0, h1, h2⟩ :=
      stack_axis1_spec ws.x.pixel_data ws.nuc.pixel_data hwx hwn hs d rest hsh z p hz hp
    rw [stack_axis1_ok _ _ hs d rest hsh] at hok
    injection hok with ht
    rw [hct, ht]
    exact ⟨h0, h1, h2⟩
  · -- the composed tensor and channels are what the first inference call receives
    intro hmc hok
    rcases hcv : composed_input cfg ws with e | ⟨t, ch⟩
    · rw [hcv] at hok
      simp [isOkB] at hok
    · have hct : composed_tensor cfg ws = t := by
        unfold composed_tensor
        rw [hcv]
      have hcc : composed_channels cfg ws = ch := by
        unfold composed_channels
        rw [hcv]
      rw [hct, hcc]
      exact run_firstEval cfg ws orc s0 t ch hmc hcv

theorem c1_witness :
    (composed_input baseConfig wsPlain = .ok (img2x2.pixel_data, [0, 0])) ∧
    (composed_channels cfgAux wsPlain = [2, 3] ∧
     (composed_tensor cfgAux wsPlain).shape = [2, 2, 3] ∧
     ((composed_tensor cfgAux wsPlain).get? [0, 1, 0] = some 0 ∧
      (composed_tensor cfgAux wsPlain).get? [0, 1, 1] =
        img2x2.pixel_data.get? [0, 1] ∧
      (composed_tensor cfgAux wsPlain).get? [0, 1, 2] =
        img2x2b.pixel_data.get? [0, 1])) ∧
    (firstEvalInput (run cfgAux wsPlain orcId initState).events =
       some (composed_tensor cfgAux wsPlain) ∧
     firstEvalChannels (run cfgAux wsPlain orcId initState).events =
       some (composed_channels cfgAux wsPlain)) := by
  have h := c1_channel_composition cfgAux wsPlain orcId initState
  have hB := h.2.1 rfl (by decide) rfl (by decide) (by decide) (by decide)
  refine ⟨(c1_channel_composition baseConfig wsPlain orcId initState).1 (Or.inl rfl),
    ⟨hB.1, by simpa using hB.2.1, ?_⟩, h.2.2.2 rfl (by decide)⟩
  exact hB.2.2 [0, 1] (by decide)

end RunCellpose
